import Mathlib

/-!
Verification development for the linkml-rs schema engine.

The definitions below are shallow embeddings of the Rust sources:
  - `core/src/ast.rs` (Span, Spanned, AST node subset),
  - `core/src/parser.rs` (the pair-processing functions of `LinkMLParser`),
  - `service/src/parser/import_resolver.rs` (`ImportResolver`),
  - `service/src/validator/instance_resolver.rs` (`InstanceResolver`).
Rust `IndexMap` values are embedded as association lists with the
insertion-order semantics of `IndexMap::insert` (replace in place when the
key exists, append otherwise).  Asynchronous file I/O is embedded as an
explicit environment argument (a finite table of load results), and caches
are dropped: loading is deterministic in the pure model, so a cache only
changes cost, never results.
-/

deriving instance DecidableEq for Except

namespace LinkML

/-! ## Ordered maps (Rust IndexMap over String keys) -/

/-- Association list standing for Rust `IndexMap<String, β>`:
insertion order is the list order. -/
abbrev IndexMap (β : Type) : Type := List (String × β)

/-- Key membership, as `IndexMap::contains_key`. -/
def imContains {β : Type} : IndexMap β → String → Bool
  | [], _ => false
  | kv :: rest, k => kv.1 == k || imContains rest k

/-- Lookup, as `IndexMap::get` (first — and in a real IndexMap only — match). -/
def imGet {β : Type} : IndexMap β → String → Option β
  | [], _ => none
  | kv :: rest, k => if kv.1 == k then some kv.2 else imGet rest k

/-- Insertion, as `IndexMap::insert`: an existing key keeps its position and
gets the new value; a new key is appended at the end. -/
def imInsert {β : Type} : IndexMap β → String → β → IndexMap β
  | [], k, v => [(k, v)]
  | kv :: rest, k, v => if kv.1 == k then (kv.1, v) :: rest else kv :: imInsert rest k v

/-- The ordered key list of a map. -/
def imKeys {β : Type} (m : IndexMap β) : List String := m.map Prod.fst

/-! ## Canonical schema model

`linkml_core::types::SchemaDefinition` itself is declared in the core crate's
`types` module, which is not among the provided sources (only `types_v2.rs`
is).  Modelled from the spec: section 3.2 declares the declaration containers
to be ordered mappings keyed by local name and section 6.3 lists the fields
`classes / slots / types / enums / prefixes` plus the ordered `imports` list;
the bodies of the entry types only need decidable structural equality here,
so each carries its name plus the fields the verified code reads. -/

/-- Class entry of the canonical schema (body fields as needed for
structural comparison during merging). -/
structure ClassDefinition where
  name : String
  description : Option String
  is_a : Option String
deriving DecidableEq, Repr

/-- Slot entry of the canonical schema.  The `range`, `range_type` and
`range_properties` fields are exactly the ones `instance_resolver.rs` reads
(see also `service/tests/instance_based_validation_test.rs`). -/
structure SlotDefinition where
  name : String
  description : Option String
  range : Option String
  range_type : Option String
  range_properties : List String
deriving DecidableEq, Repr

/-- Type entry of the canonical schema. -/
structure TypeDefinition where
  name : String
  description : Option String
deriving DecidableEq, Repr

/-- Enum entry of the canonical schema. -/
structure EnumDefinition where
  name : String
  description : Option String
deriving DecidableEq, Repr

/-- Canonical schema (`linkml_core::types::SchemaDefinition`), modelled from
the spec as described above.  A prefix expansion is kept as its URI string. -/
structure SchemaDefinition where
  id : String
  name : String
  title : Option String
  description : Option String
  version : Option String
  license : Option String
  prefixes : IndexMap String
  imports : List String
  classes : IndexMap ClassDefinition
  slots : IndexMap SlotDefinition
  types : IndexMap TypeDefinition
  enums : IndexMap EnumDefinition
deriving DecidableEq, Repr

/-! ## Errors

`LinkMLError::import(target, message)` carries a formatted message string in
Rust; the distinct `format!` calls of `import_resolver.rs` are embedded as a
structured cause (each constructor renders to exactly one of the message
shapes, so the embedding is injective on the observable error). -/

/-- Cause of an import error, one constructor per `format!` call site in
`import_resolver.rs`. -/
inductive ImportCause
  /-- line 140: maximum depth exceeded. -/
  | depthExceeded (maxDepth : Nat)
  /-- lines 254/266/278/289: a declaration of the given kind and name is
  already defined in the target. -/
  | alreadyDefined (kind : String) (dname : String)
  /-- line 209: the file for an imported reference was not found. -/
  | notFound (ref : String)
deriving DecidableEq, Repr

/-- Embedded `LinkMLError` (the variants the verified code produces). -/
inductive LinkMLError
  | importError (target : String) (cause : ImportCause)
  | parseError (msg : String)
deriving DecidableEq, Repr

/-! ## Import resolver (`service/src/parser/import_resolver.rs`) -/

/-- `ImportResolver::merge_schema`, prefix loop (lines 243-247): an imported
prefix is inserted only when the key is absent from the (growing) target. -/
def mergePrefixes (target : IndexMap String) : IndexMap String → IndexMap String
  | [] => target
  | kv :: rest =>
      mergePrefixes (if imContains target kv.1 then target else imInsert target kv.1 kv.2) rest

/-- One declaration-kind loop of `merge_schema` (lines 250-291): a source
name already present in the (growing) target is an import error; otherwise
the entry is inserted. -/
def mergeDecls {β : Type} (kind : String) (tname : String) (target : IndexMap β) :
    IndexMap β → Except LinkMLError (IndexMap β)
  | [] => .ok target
  | kv :: rest =>
      if imContains target kv.1 then
        .error (.importError tname (.alreadyDefined kind kv.1))
      else
        mergeDecls kind tname (imInsert target kv.1 kv.2) rest

/-- `ImportResolver::merge_schema` (lines 241-294): merge prefixes, then the
four declaration kinds in order, failing on the first colliding name.  All
other schema fields are left untouched.  (Rust runs the prefix loop first;
it can neither fail nor be observed by the later loops, so the embedded form
computes the same prefix map in the final record.) -/
def merge_schema (target source : SchemaDefinition) : Except LinkMLError SchemaDefinition :=
  match mergeDecls "Class" target.name target.classes source.classes with
  | .error e => .error e
  | .ok cs =>
  match mergeDecls "Slot" target.name target.slots source.slots with
  | .error e => .error e
  | .ok ss =>
  match mergeDecls "Type" target.name target.types source.types with
  | .error e => .error e
  | .ok ts =>
  match mergeDecls "Enum" target.name target.enums source.enums with
  | .error e => .error e
  | .ok es =>
      .ok { target with
            prefixes := mergePrefixes target.prefixes source.prefixes,
            classes := cs, slots := ss, types := ts, enums := es }

/-- Environment of loadable schemas: the composite of `find_import_file` plus
`load_schema_file` is embedded as a finite table from import reference to the
parsed schema; a reference outside the table fails like line 209. -/
abbrev SchemaEnv : Type := List (String × SchemaDefinition)

/-- `ImportResolver::load_import` (lines 164-186, cache dropped). -/
def load_import (env : SchemaEnv) (ref : String) : Except LinkMLError SchemaDefinition :=
  match env.find? (fun e => e.1 == ref) with
  | some e => .ok e.2
  | none => .error (.importError ref (.notFound ref))

/-- The `for import in imports_to_process` loop of
`resolve_imports_recursive` (lines 145-158): skip visited references,
otherwise load and merge.  Note the loop does not descend into the imports
of the loaded schema. -/
def processImports (env : SchemaEnv) :
    List String → SchemaDefinition → List String →
    Except LinkMLError (SchemaDefinition × List String)
  | [], s, visited => .ok (s, visited)
  | ref :: rest, s, visited =>
      if visited.contains ref then
        processImports env rest s visited
      else
        match load_import env ref with
        | .error e => .error e
        | .ok imported =>
          match merge_schema s imported with
          | .error e => .error e
          | .ok s' => processImports env rest s' (visited ++ [ref])

/-- `ImportResolver.max_depth`, set to 10 in both constructors. -/
def max_depth : Nat := 10

/-- `ImportResolver::resolve_imports_recursive` (lines 131-161).  Despite its
name the Rust body never calls itself: after the depth guard it runs the
single loop over the current schema's own import list. -/
def resolve_imports_recursive (env : SchemaEnv) (schema : SchemaDefinition)
    (visited : List String) (depth : Nat) :
    Except LinkMLError (SchemaDefinition × List String) :=
  if depth > max_depth then
    .error (.importError "imports" (.depthExceeded max_depth))
  else
    processImports env schema.imports schema visited

/-- `ImportResolver::resolve_imports_async` (lines 117-128). -/
def resolve_imports_async (env : SchemaEnv) (schema : SchemaDefinition) :
    Except LinkMLError SchemaDefinition :=
  match resolve_imports_recursive env schema [] 0 with
  | .error e => .error e
  | .ok p => .ok p.1

/-- `ImportResolver::resolve_imports` (lines 105-110): the synchronous entry
point returns a clone of its input. -/
def resolve_imports (schema : SchemaDefinition) : Except LinkMLError SchemaDefinition :=
  .ok schema

/-! ## Instance-domain resolver (`service/src/validator/instance_resolver.rs`)

The companion module `instance_loader` is not among the provided sources.
Modelled from the spec: section 4.5 (an instance document holds an ordered
`instances` list; the loader extracts the configured key field of each
entry), together with the shape the sources themselves rely on — the comment
at lines 170-171 of `instance_resolver.rs` and the repository test
`instance_based_validation_test.rs` both state that the keys of
`InstanceData.values` are the instance IDs extracted for the configured key
field.  An empty `instances` list therefore yields an empty `values` map. -/

/-- `InstanceData` of the missing `instance_loader` module (see above):
`values` maps each extracted key-field value to its associated field
values. -/
structure InstanceData where
  values : IndexMap (List String)
deriving DecidableEq, Repr

/-- Environment for the instance resolver: which files exist on disk
(consulted by `resolve_instance_path`) and the successful results of
`InstanceLoader::load_file`, keyed by path and configured key field.  A pair
outside the table behaves like a load failure, which the source logs and
skips. -/
structure InstanceEnv where
  existingFiles : List String
  loadResults : List (String × String × InstanceData)
deriving Repr

/-- Rust `str::find(':')` composed with slicing: everything after the first
colon, or the whole string when there is none. -/
def afterColon (s : String) : String :=
  match s.toList.dropWhile (fun c => !(c == ':')) with
  | [] => s
  | _ :: rest => String.mk rest

/-- Rust `str::ends_with`. -/
def strEndsWith (s t : String) : Bool :=
  t.toList.isSuffixOf s.toList

/-- Drop the last `n` bytes of a string (the slice
`&path_part[..len - n]`). -/
def strDropLast (s : String) (n : Nat) : String :=
  String.mk (s.toList.take (s.toList.length - n))

/-- `InstanceResolver::resolve_instance_path` (lines 40-68): strip an
optional prefix up to the first colon, require the `/instance` suffix, and
probe `<base>/<path>.yaml` then `<base>/<path>.yml` against the set of
existing files. -/
def resolve_instance_path (schema_base_dir : String) (existing : List String)
    (ref : String) : Option String :=
  let path_part := afterColon ref
  if !strEndsWith path_part "/instance" then
    none
  else
    let base_path := strDropLast path_part 9
    let yaml_path := schema_base_dir ++ "/" ++ base_path ++ ".yaml"
    if existing.contains yaml_path then
      some yaml_path
    else
      let yml_path := schema_base_dir ++ "/" ++ base_path ++ ".yml"
      if existing.contains yml_path then some yml_path else none

/-- `InstanceLoader::load_file` result for a path and key field, looked up in
the environment (`none` embeds the error case, which the caller skips). -/
def load_file (env : InstanceEnv) (path key_field : String) : Option InstanceData :=
  match env.loadResults.find? (fun e => e.1 == path && e.2.1 == key_field) with
  | some e => some e.2.2
  | none => none

/-- The `for import in &schema.imports` loop of
`load_instance_for_range_with_field` (lines 90-115): take the first entry
that both resolves to an existing instance path and loads; a failed load is
logged and skipped. -/
def find_instance_import (env : InstanceEnv) (schema_base_dir key_field : String) :
    List String → Option InstanceData
  | [] => none
  | ref :: rest =>
      match resolve_instance_path schema_base_dir env.existingFiles ref with
      | none => find_instance_import env schema_base_dir key_field rest
      | some instance_path =>
        match load_file env instance_path key_field with
        | some d => some d
        | none => find_instance_import env schema_base_dir key_field rest

/-- `InstanceResolver::load_instance_for_range_with_field` (lines 75-118,
cache dropped).  The `range_class` argument is used by the source only to
build the cache key, so it does not influence the result. -/
def load_instance_for_range_with_field (env : InstanceEnv) (schema_base_dir : String)
    (range_class key_field : String) (schema : SchemaDefinition) : Option InstanceData :=
  find_instance_import env schema_base_dir key_field schema.imports

/-- `InstanceResolver::get_valid_ids_for_slot` (lines 138-189). -/
def get_valid_ids_for_slot (env : InstanceEnv) (schema_base_dir : String)
    (slot : SlotDefinition) (schema : SchemaDefinition) : Option (List String) :=
  if !(slot.range_type == some "instance") then
    none
  else
    match slot.range with
    | none => none
    | some range_class =>
      let property := match slot.range_properties with
        | [] => "id"
        | p :: _ => p
      match load_instance_for_range_with_field env schema_base_dir range_class property schema with
      | none => none
      | some instance_data =>
        match imGet instance_data.values property with
        | some ids => some ids
        | none =>
          let all_ids := imKeys instance_data.values
          if all_ids.isEmpty then none else some all_ids

/-- `InstanceResolver::validate_instance_value` (lines 196-208). -/
def validate_instance_value (env : InstanceEnv) (schema_base_dir : String)
    (value : String) (slot : SlotDefinition) (schema : SchemaDefinition) : Bool :=
  match get_valid_ids_for_slot env schema_base_dir slot schema with
  | none => true
  | some valid_ids => valid_ids.contains value

/-! ## AST spans (`core/src/ast.rs`) -/

/-- `ast.rs` lines 12-21: byte range with 1-indexed line and column.  The
Rust field `end` is a Lean keyword and is embedded as `end_`. -/
structure Span where
  start : Nat
  end_ : Nat
  line : Nat
  column : Nat
deriving DecidableEq, Repr

/-- `Span::merge` (`ast.rs` lines 35-42). -/
def Span.merge (a other : Span) : Span :=
  { start := min a.start other.start,
    end_ := max a.end_ other.end_,
    line := min a.line other.line,
    column := min a.column other.column }

/-- Whether span `a` covers the byte range of span `b`. -/
def Span.covers (a b : Span) : Bool :=
  a.start ≤ b.start && b.end_ ≤ a.end_

/-- `Spanned<T>` (`ast.rs` lines 47-52). -/
structure Spanned (α : Type) where
  value : α
  span : Span
deriving DecidableEq, Repr

/-- `Description` (`ast.rs` lines 136-141). -/
inductive Description
  | Inline (s : String)
  | Block (s : String)
deriving DecidableEq, Repr

/-- Subset of `ClassAst` (`ast.rs` lines 145-196) holding the fields set by
the embedded arms of `process_class_field`; the remaining fields are
irrelevant to the verified properties and stay at their defaults
throughout. -/
structure ClassAst where
  name : String
  description : Option (Spanned Description)
  is_a : Option (Spanned String)
  abstract_ : Option (Spanned Bool)
deriving DecidableEq, Repr

/-! ## Parser pair processing (`core/src/parser.rs`)

The parser proper is Pest-generated from `grammar/linkml.pest`, which is not
among the provided sources; the functions of `parser.rs` consume the Pest
pair tree.  A pair is embedded as a node carrying its grammar rule, span,
matched text and inner pairs, and the `parser.rs` functions are embedded
over these trees. -/

/-- The grammar rules referenced by the embedded `parser.rs` functions.
`other` stands for any further rule, which those functions ignore. -/
inductive Rule
  | schema_classes
  | class_definition
  | class_description
  | class_is_a
  | class_abstract
  | schema_prefixes
  | prefix_entry
  | identifier
  | uri
  | string_value
  | block_string
  | boolean
  | other
deriving DecidableEq, Repr

/-- A Pest pair: rule, span, matched source text, and inner pairs. -/
inductive Pest
  | node (rule : Rule) (span : Span) (str : String) (children : List Pest)

/-- Rule of a pair (`Pair::as_rule`). -/
def Pest.rule : Pest → Rule
  | .node r _ _ _ => r

/-- Span of a pair (the byte/line/column data of `Pair::as_span`). -/
def Pest.span : Pest → Span
  | .node _ sp _ _ => sp

/-- Matched text of a pair (`Pair::as_str`). -/
def Pest.str : Pest → String
  | .node _ _ s _ => s

/-- Inner pairs (`Pair::into_inner`). -/
def Pest.children : Pest → List Pest
  | .node _ _ _ cs => cs

/-- `LinkMLParser::create_spanned` (`parser.rs` lines 67-77): attach the
pair's own span to the value. -/
def create_spanned {α : Type} (p : Pest) (v : α) : Spanned α :=
  { value := v, span := p.span }

/-- ASCII approximation of Rust `char::is_whitespace` for `str::trim` (the
verified inputs are ASCII). -/
def isWsChar (c : Char) : Bool :=
  c == ' ' || c == '\t' || c == '\n' || c == '\r'

/-- Rust `str::trim`. -/
def strTrim (s : String) : String :=
  String.mk (((s.toList.dropWhile isWsChar).reverse.dropWhile isWsChar).reverse)

/-- Rust `str::trim_matches(c)`: strip every leading and trailing `c`. -/
def trimMatches (c : Char) (s : String) : String :=
  String.mk (((s.toList.dropWhile (fun x => x == c)).reverse.dropWhile (fun x => x == c)).reverse)

/-- The double-quote character. -/
def dquote : Char := Char.ofNat 34

/-- The single-quote character. -/
def squote : Char := Char.ofNat 39

/-- `LinkMLParser::parse_string_value` (`parser.rs` lines 230-235). -/
def parse_string_value (s : String) : String :=
  trimMatches squote (trimMatches dquote (strTrim s))

/-- `LinkMLParser::parse_description` (`parser.rs` lines 238-244). -/
def parse_description (p : Pest) : Except LinkMLError Description :=
  match p.rule with
  | .string_value => .ok (.Inline (parse_string_value p.str))
  | .block_string => .ok (.Block (strTrim p.str))
  | _ => .error (.parseError "Invalid description format")

/-- The rules accepted by the `matches!` guard of the description arms. -/
def descAllowed : Rule → Bool
  | .string_value => true
  | .block_string => true
  | _ => false

/-- `LinkMLParser::process_class_field` (`parser.rs` lines 330-416),
restricted to the arms whose target fields are embedded in `ClassAst`; all
other rules fall through to the final ignore arm exactly as in the source. -/
def process_class_field (c : ClassAst) (p : Pest) : Except LinkMLError ClassAst :=
  match p.rule with
  | .class_description =>
      p.children.foldlM (fun acc inner =>
        if descAllowed inner.rule then do
          let desc ← parse_description inner
          pure { acc with description := some (create_spanned inner desc) }
        else
          pure acc) c
  | .class_is_a =>
      .ok (p.children.foldl (fun acc inner =>
        if inner.rule == .identifier then
          { acc with is_a := some (create_spanned inner inner.str) }
        else acc) c)
  | .class_abstract =>
      .ok (p.children.foldl (fun acc inner =>
        if inner.rule == .boolean then
          { acc with abstract_ := some (create_spanned inner (inner.str == "true")) }
        else acc) c)
  | _ => .ok c

/-- The per-definition body of the `parse_classes` loop (`parser.rs` lines
306-323): the first inner pair is the name identifier, the remaining pairs
are the class fields, and the produced entry is
`create_spanned(&name_pair, class_ast)` — spanned with the name pair's
span. -/
def parse_class_definition (dp : Pest) :
    Except LinkMLError (Option (String × Spanned ClassAst)) :=
  match dp.children with
  | [] => .ok none
  | name_pair :: fields =>
      if name_pair.rule == .identifier then do
        let cname := name_pair.str
        let c0 : ClassAst :=
          { name := cname, description := none, is_a := none, abstract_ := none }
        let c ← fields.foldlM process_class_field c0
        pure (some (cname, create_spanned name_pair c))
      else
        .ok none

/-- Loop body of `parse_classes`: a `class_definition` pair contributes its
entry through `IndexMap::insert`; any other rule is skipped. -/
def parse_classes_step (acc : IndexMap (Spanned ClassAst)) (inner : Pest) :
    Except LinkMLError (IndexMap (Spanned ClassAst)) :=
  if inner.rule == .class_definition then do
    match ← parse_class_definition inner with
    | some nc => pure (imInsert acc nc.1 nc.2)
    | none => pure acc
  else
    pure acc

/-- `LinkMLParser::parse_classes` (`parser.rs` lines 303-327): fold the
class definitions into an ordered map with `IndexMap::insert`. -/
def parse_classes (p : Pest) : Except LinkMLError (IndexMap (Spanned ClassAst)) :=
  List.foldlM parse_classes_step [] p.children

/-- `LinkMLParser::parse_prefixes` (`parser.rs` lines 247-262): the first
two inner pairs of each `prefix_entry` are the identifier key and URI value;
entries land in the map through `IndexMap::insert`. -/
def parse_prefixes (p : Pest) : Except LinkMLError (IndexMap (Spanned String)) :=
  .ok (p.children.foldl (fun acc inner =>
    if inner.rule == .prefix_entry then
      match inner.children with
      | key :: value :: _ =>
        if key.rule == .identifier && value.rule == .uri then
          imInsert acc key.str (create_spanned value value.str)
        else acc
      | _ => acc
    else acc) [])

/-! ## Concrete fixtures -/

/-- A schema with the two required fields set and everything else empty. -/
def emptySchema (sid sname : String) : SchemaDefinition :=
  { id := sid, name := sname, title := none, description := none, version := none,
    license := none, prefixes := [], imports := [], classes := [], slots := [],
    types := [], enums := [] }

/-- A class entry with only a description. -/
def classDef (n : String) (d : Option String) : ClassDefinition :=
  { name := n, description := d, is_a := none }

/-- Schema `c`: declares class `C`, no imports. -/
def schemaC : SchemaDefinition :=
  { emptySchema "https://example.org/c" "c" with
    classes := [("C", classDef "C" none)] }

/-- Schema `b`: declares class `B` and imports `c`. -/
def schemaB : SchemaDefinition :=
  { emptySchema "https://example.org/b" "b" with
    imports := ["c"],
    classes := [("B", classDef "B" none)] }

/-- Root schema `a`: declares class `A` and imports `b`. -/
def rootA : SchemaDefinition :=
  { emptySchema "https://example.org/a" "a" with
    imports := ["b"],
    classes := [("A", classDef "A" none)] }

/-- Loadable-schema environment for the chain a → b → c. -/
def envABC : SchemaEnv := [("b", schemaB), ("c", schemaC)]

/-- The schema the resolver actually produces for `rootA` under `envABC`:
`A` and `B`, but not the transitively reachable `C`. -/
def mergedAB : SchemaDefinition :=
  { emptySchema "https://example.org/a" "a" with
    imports := ["b"],
    classes := [("A", classDef "A" none), ("B", classDef "B" none)] }

/-- A link of the deep import chain: schema named `sname` importing
`nxt`. -/
def linkSchema (sname nxt : String) : SchemaDefinition :=
  { emptySchema ("https://example.org/" ++ sname) sname with imports := [nxt] }

/-- Root of a 12-schema import chain a1 → a2 → … → a12 (11 transitive
links past the root — more than `max_depth`). -/
def chainRoot : SchemaDefinition := linkSchema "a1" "a2"

/-- Environment providing the rest of the 12-schema chain. -/
def envChain : SchemaEnv :=
  [("a2", linkSchema "a2" "a3"), ("a3", linkSchema "a3" "a4"),
   ("a4", linkSchema "a4" "a5"), ("a5", linkSchema "a5" "a6"),
   ("a6", linkSchema "a6" "a7"), ("a7", linkSchema "a7" "a8"),
   ("a8", linkSchema "a8" "a9"), ("a9", linkSchema "a9" "a10"),
   ("a10", linkSchema "a10" "a11"), ("a11", linkSchema "a11" "a12"),
   ("a12", emptySchema "https://example.org/a12" "a12")]

/-- First example span: begins earliest (line 1, column 5). -/
def spanA : Span := { start := 0, end_ := 10, line := 1, column := 5 }

/-- Second example span: begins later (line 2, column 3). -/
def spanB : Span := { start := 15, end_ := 25, line := 2, column := 3 }

/-- Whether an `Except` value is a success. -/
def exceptIsOk {ε α : Type} : Except ε α → Bool
  | .ok _ => true
  | .error _ => false

/-- Whether some key of `source` already occurs in `target`. -/
def hasSharedKey {β : Type} (target : IndexMap β) : IndexMap β → Bool
  | [] => false
  | kv :: rest => imContains target kv.1 || hasSharedKey target rest

/-- The schema-level metadata of `m` agrees with that of `a`. -/
def schemaMetadataEq (a m : SchemaDefinition) : Prop :=
  m.id = a.id ∧ m.name = a.name ∧ m.title = a.title ∧ m.description = a.description ∧
  m.version = a.version ∧ m.license = a.license ∧ m.imports = a.imports

/-- A class body shared by the two colliding schemas. -/
def sharedClass : ClassDefinition := classDef "C" (some "shared body")

/-- Merge target declaring class `C` with body `sharedClass`. -/
def schemaT2 : SchemaDefinition :=
  { emptySchema "https://example.org/t" "t" with classes := [("C", sharedClass)] }

/-- Merge source declaring the structurally identical class `C`. -/
def schemaS2 : SchemaDefinition :=
  { emptySchema "https://example.org/s" "s" with classes := [("C", sharedClass)] }

/-- Merge target for the frame-property witness: one prefix, a title. -/
def schemaT9 : SchemaDefinition :=
  { emptySchema "https://example.org/t9" "t9" with
    title := some "Target", prefixes := [("ex", "https://t.example/")] }

/-- Merge source for the frame-property witness: a colliding prefix `ex`
plus a fresh prefix `new`, and different metadata. -/
def schemaS9 : SchemaDefinition :=
  { emptySchema "https://example.org/s9" "s9" with
    title := some "Source",
    prefixes := [("ex", "https://s.example/"), ("new", "https://n.example/")] }

/-- Expected merge result for `schemaT9` and `schemaS9`: the target's `ex`
mapping survives, `new` is appended, metadata is the target's. -/
def merged9 : SchemaDefinition :=
  { schemaT9 with prefixes := [("ex", "https://t.example/"), ("new", "https://n.example/")] }

/-- Instance-bound slot with range class `Foo`, keyed by `id`. -/
def slotFoo : SlotDefinition :=
  { name := "identifier", description := none, range := some "Foo",
    range_type := some "instance", range_properties := ["id"] }

/-- Schema importing the instance document of `foo`. -/
def schemaFooImport : SchemaDefinition :=
  { emptySchema "https://example.org/s4" "s4" with imports := ["txp:a/foo/instance"] }

/-- Loaded instance data with an empty `instances` list: no keys. -/
def emptyFooData : InstanceData := { values := [] }

/-- Instance environment where `foo`'s instance file exists and loads to the
empty instance set. -/
def envEmptyFoo : InstanceEnv :=
  { existingFiles := ["base/a/foo.yaml"],
    loadResults := [("base/a/foo.yaml", "id", emptyFooData)] }

/-- Instance data of the `bar` vocabulary (one entry, id `BAR1`). -/
def barData : InstanceData := { values := [("BAR1", ["Bar One"])] }

/-- Instance environment where only `bar`'s instance file exists. -/
def envBar : InstanceEnv :=
  { existingFiles := ["base/x/bar.yaml"],
    loadResults := [("base/x/bar.yaml", "id", barData)] }

/-- Schema whose sole instance import names `bar`, not `Foo`. -/
def schemaBarImport : SchemaDefinition :=
  { emptySchema "https://example.org/s5" "s5" with imports := ["txp:x/bar/instance"] }

/-- Pest fixture: the name identifier `C` of the first class definition
(source bytes 11-12, line 2, column 3). -/
def nameNodeC : Pest := .node .identifier ⟨11, 12, 2, 3⟩ "C" []

/-- Pest fixture: the quoted description value of the first definition
(bytes 31-38, line 3, column 18). -/
def descValueNode : Pest := .node .string_value ⟨31, 38, 3, 18⟩ "\"first\"" []

/-- Pest fixture: the description field of the first definition. -/
def descFieldNode : Pest :=
  .node .class_description ⟨18, 38, 3, 5⟩ "description: \"first\"" [descValueNode]

/-- Pest fixture: the first class definition `C` with its description. -/
def classDefNode : Pest :=
  .node .class_definition ⟨11, 38, 2, 3⟩ "C with description first" [nameNodeC, descFieldNode]

/-- Pest fixture: a classes block declaring `C` once, with a description
whose span ends past the name identifier. -/
def classWithDescPair : Pest :=
  .node .schema_classes ⟨0, 38, 1, 1⟩ "classes block" [classDefNode]

/-- Pest fixture: the name identifier `C` of the second, duplicate
definition (bytes 41-42, line 4, column 3). -/
def nameNodeC2 : Pest := .node .identifier ⟨41, 42, 4, 3⟩ "C" []

/-- Pest fixture: the quoted description value of the duplicate definition
(bytes 61-69, line 5, column 18). -/
def descValueNode2 : Pest := .node .string_value ⟨61, 69, 5, 18⟩ "\"second\"" []

/-- Pest fixture: the description field of the duplicate definition. -/
def descFieldNode2 : Pest :=
  .node .class_description ⟨48, 69, 5, 5⟩ "description: \"second\"" [descValueNode2]

/-- Pest fixture: the second class definition, also named `C`. -/
def classDefNode2 : Pest :=
  .node .class_definition ⟨41, 69, 4, 3⟩ "C with description second" [nameNodeC2, descFieldNode2]

/-- Pest fixture: a classes block containing two definitions that share the
name `C` within the same mapping. -/
def dupClassesPair : Pest :=
  .node .schema_classes ⟨0, 69, 1, 1⟩ "classes block" [classDefNode, classDefNode2]

/-- The entry `parse_classes` produces for `classWithDescPair`: the class
body holds the description spanned at bytes 31-38, while the entry itself is
spanned with only the name identifier's bytes 11-12. -/
def entryC8 : Spanned ClassAst :=
  { value := { name := "C",
               description := some { value := .Inline "first", span := ⟨31, 38, 3, 18⟩ },
               is_a := none, abstract_ := none },
    span := ⟨11, 12, 2, 3⟩ }

/-- The single entry `parse_classes` produces for `dupClassesPair`: the
second definition's body at the first definition's map position. -/
def entryC6 : Spanned ClassAst :=
  { value := { name := "C",
               description := some { value := .Inline "second", span := ⟨61, 69, 5, 18⟩ },
               is_a := none, abstract_ := none },
    span := ⟨41, 42, 4, 3⟩ }

/-! ## Map lemmas -/

theorem imContains_insert {β : Type} (m : IndexMap β) (k : String) (v : β) (k' : String) :
    imContains (imInsert m k v) k' = (k == k' || imContains m k') := by
  induction m with
  | nil => simp [imInsert, imContains]
  | cons kv rest ih =>
    cases h : kv.1 == k with
    | true =>
      have hk : kv.1 = k := eq_of_beq h
      cases hkk : k == k' <;> simp [imInsert, imContains, h, hk, hkk]
    | false =>
      simp [imInsert, imContains, h, ih, Bool.or_left_comm]

theorem imGet_insert {β : Type} (m : IndexMap β) (k : String) (v : β) (k' : String) :
    imGet (imInsert m k v) k' = if k == k' then some v else imGet m k' := by
  induction m with
  | nil => simp [imInsert, imGet]
  | cons kv rest ih =>
    cases h : kv.1 == k with
    | true =>
      have hk : kv.1 = k := eq_of_beq h
      cases hkk : k == k' <;> simp [imInsert, imGet, h, hk, hkk]
    | false =>
      cases hkk : kv.1 == k' with
      | true =>
        have h1 : kv.1 = k' := eq_of_beq hkk
        have hne : (k == k') = false := by
          cases hq : k == k' with
          | false => rfl
          | true =>
            have h3 : kv.1 = k := h1.trans (eq_of_beq hq).symm
            rw [h3] at h
            simp at h
        simp [imInsert, imGet, h, hkk, hne]
      | false =>
        simp [imInsert, imGet, h, hkk, ih]

theorem hasSharedKey_insert_mono {β : Type} (t : IndexMap β) (k : String) (v : β)
    (l : IndexMap β) (h : hasSharedKey t l = true) :
    hasSharedKey (imInsert t k v) l = true := by
  induction l with
  | nil => simp [hasSharedKey] at h
  | cons kv rest ih =>
    simp [hasSharedKey, imContains_insert] at h ⊢
    rcases h with h | h
    · exact Or.inl (Or.inr h)
    · exact Or.inr (ih h)

theorem mergeDecls_shared_error {β : Type} (kind tname : String) :
    ∀ (source target : IndexMap β), hasSharedKey target source = true →
      ∃ e, mergeDecls kind tname target source = .error e := by
  intro source
  induction source with
  | nil => intro t h; simp [hasSharedKey] at h
  | cons kv rest ih =>
    intro t h
    cases hc : imContains t kv.1 with
    | true =>
      exact ⟨.importError tname (.alreadyDefined kind kv.1), by simp [mergeDecls, hc]⟩
    | false =>
      have h' : hasSharedKey t rest = true := by
        simp [hasSharedKey, hc] at h
        exact h
      obtain ⟨e, he⟩ := ih (imInsert t kv.1 kv.2) (hasSharedKey_insert_mono t kv.1 kv.2 rest h')
      exact ⟨e, by simp [mergeDecls, hc, he]⟩

theorem mergePrefixes_get :
    ∀ (sp t : IndexMap String) (k : String), imContains t k = true →
      imGet (mergePrefixes t sp) k = imGet t k := by
  intro sp
  induction sp with
  | nil => intro t k _; rfl
  | cons kv rest ih =>
    intro t k h
    cases hc : imContains t kv.1 with
    | true => simpa [mergePrefixes, hc] using ih t k h
    | false =>
      have hne : (kv.1 == k) = false := by
        cases hq : kv.1 == k
        · rfl
        · rw [eq_of_beq hq] at hc; rw [hc] at h; cases h
      have hcontains : imContains (imInsert t kv.1 kv.2) k = true := by
        rw [imContains_insert, h]; simp
      have hget : imGet (imInsert t kv.1 kv.2) k = imGet t k := by
        rw [imGet_insert, hne]; rfl
      calc imGet (mergePrefixes t (kv :: rest)) k
      _ = imGet (mergePrefixes (imInsert t kv.1 kv.2) rest) k := by
            simp [mergePrefixes, hc]
      _ = imGet (imInsert t kv.1 kv.2) k := ih _ k hcontains
      _ = imGet t k := hget

/-! ## Parser lemmas -/

theorem pure_eq_ok {ε α : Type} (a : α) : (pure a : Except ε α) = Except.ok a := rfl

theorem bind_ok {ε α β : Type} (a : α) (f : α → Except ε β) :
    (Except.ok a >>= f) = f a := rfl

theorem bind_error {ε α β : Type} (e : ε) (f : α → Except ε β) :
    ((Except.error e : Except ε α) >>= f) = .error e := rfl

theorem list_contains_iff (l : List String) (a : String) :
    l.contains a = true ↔ a ∈ l := by
  simp

theorem foldlM_cons_except {α β : Type} (step : α → β → Except LinkMLError α)
    (a : α) (b : β) (l : List β) :
    List.foldlM step a (b :: l) = (step a b >>= fun a' => List.foldlM step a' l) := rfl

theorem foldlM_ok {α β : Type} (step : α → β → Except LinkMLError α)
    (hs : ∀ a b, ∃ a', step a b = .ok a') :
    ∀ (l : List β) (a : α), ∃ a', List.foldlM step a l = .ok a' := by
  intro l
  induction l with
  | nil => intro a; exact ⟨a, rfl⟩
  | cons b rest ih =>
    intro a
    obtain ⟨a1, h1⟩ := hs a b
    obtain ⟨a2, h2⟩ := ih a1
    refine ⟨a2, ?_⟩
    rw [foldlM_cons_except, h1]
    exact h2

theorem parse_description_ok (p : Pest) (h : descAllowed p.rule = true) :
    ∃ d, parse_description p = .ok d := by
  unfold parse_description
  revert h
  cases hp : p.rule <;> intro h <;> first
    | exact ⟨_, rfl⟩
    | simp [descAllowed] at h

theorem process_class_field_ok (c : ClassAst) (p : Pest) :
    ∃ c', process_class_field c p = .ok c' := by
  unfold process_class_field
  cases hp : p.rule
  case class_description =>
    apply foldlM_ok
    intro a b
    cases hd : descAllowed b.rule with
    | true =>
      obtain ⟨d, hdq⟩ := parse_description_ok b hd
      refine ⟨{ a with description := some (create_spanned b d) }, ?_⟩
      simp [hd, hdq, bind_ok, pure_eq_ok]
    | false => exact ⟨a, by simp [hd, pure_eq_ok]⟩
  all_goals exact ⟨_, rfl⟩

theorem parse_class_definition_ok (dp : Pest) :
    ∃ r, parse_class_definition dp = .ok r := by
  unfold parse_class_definition
  cases hc : dp.children with
  | nil => exact ⟨none, rfl⟩
  | cons name_pair fields =>
    cases hi : name_pair.rule == .identifier with
    | true =>
      obtain ⟨c, hfold⟩ :=
        foldlM_ok process_class_field process_class_field_ok fields
          { name := name_pair.str, description := none, is_a := none, abstract_ := none }
      exact ⟨some (name_pair.str, create_spanned name_pair c),
        by simp [hi, hfold, bind_ok, pure_eq_ok]⟩
    | false => exact ⟨none, by simp [hi]⟩

theorem imKeys_insert {β : Type} (m : IndexMap β) (k : String) (v : β) :
    imKeys (imInsert m k v) = if imContains m k then imKeys m else imKeys m ++ [k] := by
  induction m with
  | nil => simp [imInsert, imContains, imKeys]
  | cons kv rest ih =>
    cases h : kv.1 == k with
    | true =>
      have hk : kv.1 = k := eq_of_beq h
      simp [imInsert, imContains, imKeys, h, hk]
    | false =>
      cases hc : imContains rest k <;>
        (rw [hc] at ih; simp [imKeys] at ih; simp [imInsert, imContains, imKeys, h, hc, ih])

theorem imContains_false_not_mem {β : Type} (m : IndexMap β) (k : String)
    (h : imContains m k = false) : k ∉ imKeys m := by
  induction m with
  | nil => simp [imKeys]
  | cons kv rest ih =>
    simp [imContains] at h
    obtain ⟨h1, h2⟩ := h
    have ihr := ih h2
    simp only [imKeys, List.map_cons, List.mem_cons] at ihr ⊢
    rintro (hk | hk)
    · exact h1 hk.symm
    · exact ihr hk

theorem imInsert_keys_nodup {β : Type} (m : IndexMap β) (k : String) (v : β)
    (h : (imKeys m).Nodup) : (imKeys (imInsert m k v)).Nodup := by
  rw [imKeys_insert]
  cases hc : imContains m k with
  | true => simpa using h
  | false =>
    have hnm := imContains_false_not_mem m k hc
    rw [if_neg (by simp), List.nodup_append]
    refine ⟨h, List.nodup_singleton _, fun a ha hmem => ?_⟩
    have ha' : a = k := by simpa using hmem
    exact hnm (ha' ▸ ha)

theorem parse_classes_step_ok (acc : IndexMap (Spanned ClassAst)) (inner : Pest)
    (h : (imKeys acc).Nodup) :
    ∃ m, parse_classes_step acc inner = .ok m ∧ (imKeys m).Nodup := by
  unfold parse_classes_step
  cases hr : inner.rule == .class_definition with
  | true =>
    obtain ⟨r, hpr⟩ := parse_class_definition_ok inner
    cases r with
    | none => exact ⟨acc, by simp [hr, hpr, bind_ok, pure_eq_ok], h⟩
    | some nc =>
      exact ⟨imInsert acc nc.1 nc.2, by simp [hr, hpr, bind_ok, pure_eq_ok],
        imInsert_keys_nodup _ _ _ h⟩
  | false => exact ⟨acc, by simp [hr, pure_eq_ok], h⟩

theorem parse_classes_fold_nodup :
    ∀ (l : List Pest) (acc : IndexMap (Spanned ClassAst)), (imKeys acc).Nodup →
      ∃ m, List.foldlM parse_classes_step acc l = .ok m ∧ (imKeys m).Nodup := by
  intro l
  induction l with
  | nil => intro acc h; exact ⟨acc, rfl, h⟩
  | cons b rest ih =>
    intro acc h
    obtain ⟨m1, h1, hn1⟩ := parse_classes_step_ok acc b h
    obtain ⟨m2, h2, hn2⟩ := ih m1 hn1
    refine ⟨m2, ?_, hn2⟩
    rw [foldlM_cons_except, h1]
    exact h2

/-! ## Claim C1 -/

/-- C1: claimed — for acyclic import graphs within the depth bound,
`resolve_imports_async` returns the union of the declarations of all schemas
reachable through transitive imports, deterministically ordered.  The code
does not do this: `resolve_imports_recursive` never calls itself, so only
the root's direct imports are merged.  Here `rootA` imports `b`, `b` imports
`c`, and `c`'s class `C` is reachable yet absent from the result, while the
direct import's class `B` is present. -/
theorem C1_no_transitive_merge :
    resolve_imports_async envABC rootA = .ok mergedAB ∧
    schemaB.imports = ["c"] ∧
    imContains schemaC.classes "C" = true ∧
    imContains mergedAB.classes "C" = false ∧
    imContains mergedAB.classes "B" = true := by
  decide

/-! ## Claim C3 -/

/-- C3: claimed — a chain of transitive imports longer than `max_depth`
makes `resolve_imports_async` return the depth-exceeded `ImportError`.  The
code cannot produce that error: the depth counter stays at 0 because
`resolve_imports_recursive` never recurses, so the 12-schema chain resolves
without error (to the root merged with only its direct import, which is
declaration-free, hence to the root itself). -/
theorem C3_depth_error_unreachable :
    resolve_imports_async envChain chainRoot = .ok chainRoot ∧
    (resolve_imports_async envChain chainRoot ≠
      .error (.importError "imports" (.depthExceeded max_depth))) := by
  decide

/-! ## Claim C7 -/

/-- C7 counterexample: claimed — `Span::merge` keeps the `(line, column)`
pair of the span that begins earliest.  `spanA` begins earliest, so the
claim demands `(1, 5)`; the code instead takes the minimum of each component
separately and produces `(1, 3)`, a pair belonging to neither input. -/
theorem C7_merge_not_earliest_pair :
    spanA.start < spanB.start ∧
    Span.merge spanA spanB = { start := 0, end_ := 25, line := 1, column := 3 } ∧
    ((Span.merge spanA spanB).line, (Span.merge spanA spanB).column) ≠
      (spanA.line, spanA.column) := by
  decide

/-- C7 amended: `Span::merge` returns min start, max end, and the
componentwise minima of line and of column (not the earliest pair). -/
theorem C7_merge_componentwise :
    ∀ a b : Span,
      Span.merge a b =
        { start := min a.start b.start, end_ := max a.end_ b.end_,
          line := min a.line b.line, column := min a.column b.column } :=
  fun _ _ => rfl

/-! ## Claim C10 -/

/-- C10: the synchronous `ImportResolver::resolve_imports` returns `Ok`
with a clone of the input schema for every input — no resolution, merging or
error detection happens there. -/
theorem C10_sync_resolve_is_identity :
    ∀ s : SchemaDefinition, resolve_imports s = .ok s :=
  fun _ => rfl

/-! ## Claim C2 -/

/-- C2 counterexample: claimed — a name present in both schemas is a no-op
when the two entries are structurally equal, and only otherwise a collision
error.  `schemaT2` and `schemaS2` both carry the byte-for-byte identical
class entry `C`, yet `merge_schema` reports the collision error. -/
theorem C2_equal_entries_still_collide :
    imGet schemaT2.classes "C" = imGet schemaS2.classes "C" ∧
    merge_schema schemaT2 schemaS2 =
      .error (.importError "t" (.alreadyDefined "Class" "C")) := by
  decide

/-- C2 amended: for every declaration kind (classes, slots, types, enums), a
name present in both the target and the imported schema makes `merge_schema`
return an `ImportError` unconditionally — structural equality of the two
entries is never consulted and the import is never a no-op. -/
theorem C2_collision_always_errors (t s : SchemaDefinition)
    (h : (hasSharedKey t.classes s.classes || hasSharedKey t.slots s.slots ||
          hasSharedKey t.types s.types || hasSharedKey t.enums s.enums) = true) :
    exceptIsOk (merge_schema t s) = false := by
  simp only [Bool.or_eq_true] at h
  rcases h with ((hcl | hsl) | hty) | hen
  · obtain ⟨e, he⟩ := mergeDecls_shared_error "Class" t.name s.classes t.classes hcl
    simp [merge_schema, he, exceptIsOk]
  · cases h1 : mergeDecls "Class" t.name t.classes s.classes with
    | error e => simp [merge_schema, h1, exceptIsOk]
    | ok cs =>
      obtain ⟨e, he⟩ := mergeDecls_shared_error "Slot" t.name s.slots t.slots hsl
      simp [merge_schema, h1, he, exceptIsOk]
  · cases h1 : mergeDecls "Class" t.name t.classes s.classes with
    | error e => simp [merge_schema, h1, exceptIsOk]
    | ok cs =>
      cases h2 : mergeDecls "Slot" t.name t.slots s.slots with
      | error e => simp [merge_schema, h1, h2, exceptIsOk]
      | ok ss =>
        obtain ⟨e, he⟩ := mergeDecls_shared_error "Type" t.name s.types t.types hty
        simp [merge_schema, h1, h2, he, exceptIsOk]
  · cases h1 : mergeDecls "Class" t.name t.classes s.classes with
    | error e => simp [merge_schema, h1, exceptIsOk]
    | ok cs =>
      cases h2 : mergeDecls "Slot" t.name t.slots s.slots with
      | error e => simp [merge_schema, h1, h2, exceptIsOk]
      | ok ss =>
        cases h3 : mergeDecls "Type" t.name t.types s.types with
        | error e => simp [merge_schema, h1, h2, h3, exceptIsOk]
        | ok ts =>
          obtain ⟨e, he⟩ := mergeDecls_shared_error "Enum" t.name s.enums t.enums hen
          simp [merge_schema, h1, h2, h3, he, exceptIsOk]

/-- C2 witness: the amended statement applied to the concrete colliding
schemas `schemaT2` and `schemaS2`. -/
theorem C2_collision_always_errors_witness :
    (hasSharedKey schemaT2.classes schemaS2.classes ||
     hasSharedKey schemaT2.slots schemaS2.slots ||
     hasSharedKey schemaT2.types schemaS2.types ||
     hasSharedKey schemaT2.enums schemaS2.enums) = true ∧
    exceptIsOk (merge_schema schemaT2 schemaS2) = false :=
  ⟨by decide, C2_collision_always_errors schemaT2 schemaS2 (by decide)⟩

/-! ## Claim C9 -/

/-- C9: `merge_schema` leaves the target's schema-level metadata (id, name,
title, description, version, license) and import list unchanged, and a
prefix key already present in the target keeps the target's mapping —
silently, since prefix collisions never produce an error. -/
theorem C9_merge_preserves_target (t s m : SchemaDefinition)
    (h : merge_schema t s = .ok m) :
    schemaMetadataEq t m ∧
    ∀ k, imContains t.prefixes k = true → imGet m.prefixes k = imGet t.prefixes k := by
  unfold merge_schema at h
  cases h1 : mergeDecls "Class" t.name t.classes s.classes with
  | error e => rw [h1] at h; cases h
  | ok cs =>
    rw [h1] at h
    cases h2 : mergeDecls "Slot" t.name t.slots s.slots with
    | error e => rw [h2] at h; cases h
    | ok ss =>
      rw [h2] at h
      cases h3 : mergeDecls "Type" t.name t.types s.types with
      | error e => rw [h3] at h; cases h
      | ok ts =>
        rw [h3] at h
        cases h4 : mergeDecls "Enum" t.name t.enums s.enums with
        | error e => rw [h4] at h; cases h
        | ok es =>
          rw [h4] at h
          simp only [Except.ok.injEq] at h
          subst h
          refine ⟨⟨rfl, rfl, rfl, rfl, rfl, rfl, rfl⟩, ?_⟩
          intro k hk
          exact mergePrefixes_get s.prefixes t.prefixes k hk

/-- C9 witness: merging `schemaS9` into `schemaT9` succeeds as `merged9`;
the target metadata survives and the colliding prefix `ex` keeps the
target's expansion. -/
theorem C9_merge_preserves_target_witness :
    schemaMetadataEq schemaT9 merged9 ∧
    imGet merged9.prefixes "ex" = imGet schemaT9.prefixes "ex" :=
  have h := C9_merge_preserves_target schemaT9 schemaS9 merged9 (by decide)
  ⟨h.1, h.2 "ex" (by decide)⟩

/-! ## Claim C4 -/

/-- C4 counterexample: claimed — with an empty referenced instance list the
legal set is empty and every value fails validation.  In the code an empty
instance file produces an `InstanceData` with no keys, `get_valid_ids_for_slot`
then answers `none`, and `validate_instance_value` treats `none` as "no
instance validation needed": the arbitrary value `XX` passes. -/
theorem C4_empty_instance_set_accepts_all :
    slotFoo.range_type = some "instance" ∧
    load_file envEmptyFoo "base/a/foo.yaml" "id" = some emptyFooData ∧
    emptyFooData.values = [] ∧
    validate_instance_value envEmptyFoo "base" "XX" slotFoo schemaFooImport = true := by
  decide

/-- C4 amended: `validate_instance_value` returns `true` exactly when no
legal set is resolved (`get_valid_ids_for_slot` answers `none`: the slot is
not instance-bound, has no range, no instance import loads, or the loaded
instance data is empty) or the value is a member of the resolved set; in
particular an empty instance list disables the check instead of failing
every value. -/
theorem C4_validate_true_iff (env : InstanceEnv) (base_dir value : String)
    (slot : SlotDefinition) (schema : SchemaDefinition) :
    validate_instance_value env base_dir value slot schema = true ↔
      (get_valid_ids_for_slot env base_dir slot schema = none ∨
       ∃ ids, get_valid_ids_for_slot env base_dir slot schema = some ids ∧ value ∈ ids) := by
  unfold validate_instance_value
  cases hg : get_valid_ids_for_slot env base_dir slot schema with
  | none => simp
  | some ids =>
    rw [list_contains_iff]
    constructor
    · intro hmem
      exact Or.inr ⟨ids, rfl, hmem⟩
    · rintro (hnone | ⟨ids', hids', hmem⟩)
      · cases hnone
      · have hii : ids = ids' := by
          injection hids'
        rw [hii]
        exact hmem

/-! ## Claim C5 -/

/-- C5: claimed — the instance-domain resolver loads the legal set from
the import whose reference ends in `/instance` and whose tail path names
the slot's range class.  The code never consults the range class (it only
enters the cache key): for a slot with range `Foo` and a schema whose only
instance import names `bar`, the resolver loads `bar`'s instance file and
exposes `bar`'s ids as the legal set, and the result is the same for any
range class. -/
theorem C5_range_class_not_matched :
    resolve_instance_path "base" envBar.existingFiles "txp:x/bar/instance" =
      some "base/x/bar.yaml" ∧
    load_instance_for_range_with_field envBar "base" "Foo" "id" schemaBarImport =
      some barData ∧
    load_instance_for_range_with_field envBar "base" "Bar" "id" schemaBarImport =
      some barData ∧
    get_valid_ids_for_slot envBar "base" slotFoo schemaBarImport = some ["BAR1"] ∧
    validate_instance_value envBar "base" "BAR1" slotFoo schemaBarImport = true := by
  decide

/-! ## Claim C6 -/

/-- C6 counterexample: claimed — two entries with the same key within one
mapping are a parse error carrying both spans.  The classes block below
holds two definitions named `C`; `parse_classes` succeeds and returns a
single entry: the second definition's body (description "second"), no
error, no spans reported. -/
theorem C6_duplicate_key_no_error :
    dupClassesPair.children = [classDefNode, classDefNode2] ∧
    nameNodeC.str = "C" ∧ nameNodeC2.str = "C" ∧
    parse_classes dupClassesPair = .ok [("C", entryC6)] :=
  ⟨rfl, by decide, by decide, by decide⟩

/-- C6 amended: duplicate keys within one mapping are not detected:
`parse_classes` always succeeds, and the resulting ordered map silently
keeps one entry per distinct name (`IndexMap::insert` lets the later
definition overwrite the earlier one in place). -/
theorem C6_duplicates_collapse_silently (p : Pest) :
    ∃ m, parse_classes p = .ok m ∧ (imKeys m).Nodup := by
  unfold parse_classes
  exact parse_classes_fold_nodup p.children [] (by simp [imKeys])

/-! ## Claim C8 -/

/-- C8 counterexample: claimed — the span recorded on every AST subtree
covers the spans of its descendants.  The entry produced for class `C`
carries only the name identifier's span (bytes 11-12) while its descendant
description value sits at bytes 31-38, outside that range. -/
theorem C8_span_does_not_cover_descendants :
    parse_classes classWithDescPair = .ok [("C", entryC8)] ∧
    entryC8.value.description =
      some { value := Description.Inline "first", span := descValueNode.span } ∧
    Span.covers entryC8.span descValueNode.span = false := by
  decide

/-- C8 amended: the span recorded on a classes-map entry is exactly the span
of the entry's name identifier (the first inner pair), so it does not in
general cover the spans of the entry's descendant nodes. -/
theorem C8_entry_span_is_name_span (dp name_pair : Pest) (fields : List Pest)
    (n : String) (sc : Spanned ClassAst)
    (hch : dp.children = name_pair :: fields)
    (hok : parse_class_definition dp = .ok (some (n, sc))) :
    sc.span = name_pair.span := by
  unfold parse_class_definition at hok
  rw [hch] at hok
  cases hi : name_pair.rule == .identifier with
  | false => simp [hi] at hok
  | true =>
    simp only [hi, if_true] at hok
    cases hfold : List.foldlM process_class_field
        { name := name_pair.str, description := none, is_a := none, abstract_ := none }
        fields with
    | error e => simp [hfold, bind_error] at hok
    | ok c =>
      simp [hfold, bind_ok, pure_eq_ok] at hok
      rw [← hok.2]
      rfl

/-- C8 witness: the amended statement applied to the concrete definition of
class `C` with a description. -/
theorem C8_entry_span_witness :
    classDefNode.children = [nameNodeC, descFieldNode] ∧
    entryC8.span = nameNodeC.span :=
  ⟨rfl, C8_entry_span_is_name_span classDefNode nameNodeC [descFieldNode] "C" entryC8
    rfl (by decide)⟩

end LinkML
